import Mathlib

/-!
Verification of the task-manager mini-project: the task record and its
pipe-delimited serialization codec (task.rs), the in-memory task store
(manager.rs), the file persistence adapter (storage.rs), and the identifier
assignment done by the command layer (main.rs).  Rust strings are modelled as
lists of characters; u32 arithmetic is modelled on Nat with explicit
reduction modulo 2 ^ 32 where the source performs u32 arithmetic.
-/

namespace TaskStore

/-- Rust string contents, modelled as a list of characters. -/
abbrev Str := List Char

/-- Equality on Except results is decidable when it is on both components. -/
instance {ε α : Type} [DecidableEq ε] [DecidableEq α] : DecidableEq (Except ε α)
  | .error e, .error f =>
    if h : e = f then .isTrue (by rw [h])
    else .isFalse (by intro hh; injection hh; exact h (by assumption))
  | .error _, .ok _ => .isFalse (by intro hh; exact Except.noConfusion hh)
  | .ok _, .error _ => .isFalse (by intro hh; exact Except.noConfusion hh)
  | .ok a, .ok b =>
    if h : a = b then .isTrue (by rw [h])
    else .isFalse (by intro hh; injection hh; exact h (by assumption))

/-- Error taxonomy of the task manager (error.rs, enum TaskError).  The
IoError payload (an OS error) is irrelevant to every claim and dropped. -/
inductive TaskError where
  | IoError : TaskError
  | ParseError : Str → TaskError
  | ValidationError : Str → TaskError
  | NotFound : Nat → TaskError
  | InvalidPriority : Str → TaskError
  | InvalidStatus : Str → TaskError
  | SerializationError : Str → TaskError
  deriving DecidableEq, Repr

/-- Rust str::to_lowercase, restricted to the per-character lowering that the
ASCII keywords being matched require. -/
def lowerStr (s : Str) : Str := s.map Char.toLower

/-- task.rs, enum Priority. -/
inductive Priority where
  | Low : Priority
  | Medium : Priority
  | High : Priority
  | Critical : Priority
  deriving DecidableEq, Repr

/-- task.rs, impl Display for Priority. -/
def Priority.display : Priority → Str
  | .Low => "LOW".toList
  | .Medium => "MEDIUM".toList
  | .High => "HIGH".toList
  | .Critical => "CRITICAL".toList

/-- task.rs, impl FromStr for Priority: lowercase the input, match the four
keywords, otherwise InvalidPriority carrying the original input. -/
def Priority.fromStr (s : Str) : Except TaskError Priority :=
  let l := lowerStr s
  if l = "low".toList then .ok .Low
  else if l = "medium".toList then .ok .Medium
  else if l = "high".toList then .ok .High
  else if l = "critical".toList then .ok .Critical
  else .error (.InvalidPriority s)

/-- task.rs, enum Status. -/
inductive Status where
  | Pending : Status
  | InProgress : Status
  | Completed : Status
  deriving DecidableEq, Repr

/-- task.rs, impl Display for Status. -/
def Status.display : Status → Str
  | .Pending => "PENDING".toList
  | .InProgress => "IN_PROGRESS".toList
  | .Completed => "COMPLETED".toList

/-- task.rs, impl FromStr for Status: lowercase the input, match the keywords
and their synonyms, otherwise InvalidStatus carrying the original input. -/
def Status.fromStr (s : Str) : Except TaskError Status :=
  let l := lowerStr s
  if l = "pending".toList then .ok .Pending
  else if l = "in_progress".toList ∨ l = "inprogress".toList then .ok .InProgress
  else if l = "completed".toList ∨ l = "complete".toList then .ok .Completed
  else .error (.InvalidStatus s)

/-- Decimal digit characters of n, most significant first; structural fuel
recursion (fuel n suffices for value n).  Together with renderNat this models
Rust's Display for u32 as used by format!. -/
def natDigitsAux : Nat → Nat → Str
  | 0, _ => []
  | fuel + 1, n => if n = 0 then [] else natDigitsAux fuel (n / 10) ++ [Nat.digitChar (n % 10)]

/-- Decimal rendering of a natural number, as format! produces for a u32. -/
def renderNat (n : Nat) : Str := if n = 0 then ['0'] else natDigitsAux n n

/-- Nonempty all-digit text parsed as a decimal number. -/
def parseDigits (cs : Str) : Option Nat :=
  if cs.isEmpty then none
  else if cs.all Char.isDigit then
    some (cs.foldl (fun acc c => acc * 10 + (c.toNat - 48)) 0)
  else none

/-- Rust str::parse::<u32>: an optional leading plus sign, then one or more
decimal digits, and the value must fit in 32 bits. -/
def parseU32 (cs : Str) : Option Nat :=
  let ds := if cs.head? = some '+' then cs.tail else cs
  match parseDigits ds with
  | some n => if n < 2 ^ 32 then some n else none
  | none => none

/-- task.rs, struct Task. -/
structure Task where
  id : Nat
  title : Str
  description : Option Str
  priority : Priority
  status : Status
  category : Option Str
  created_at : Str
  deriving DecidableEq, Repr

/-- Whitespace test backing str::trim; the source only ever trims ASCII
whitespace, which Char.isWhitespace covers. -/
def isWsChar (c : Char) : Bool := c.isWhitespace

/-- Rust str::trim: drop whitespace from both ends. -/
def trimChars (cs : Str) : Str :=
  ((cs.dropWhile isWsChar).reverse.dropWhile isWsChar).reverse

/-- task.rs, Task::current_timestamp: a fixed literal in this design. -/
def currentTimestamp : Str := "2024-01-15 10:00:00".toList

/-- task.rs, Task::new: reject a title that is empty after trimming, else
build the task with status Pending and absent optionals. -/
def Task.new (id : Nat) (title : Str) (priority : Priority) : Except TaskError Task :=
  if (trimChars title).isEmpty then
    .error (.ValidationError "Title cannot be empty".toList)
  else
    .ok { id := id, title := title, description := none, priority := priority,
          status := .Pending, category := none, created_at := currentTimestamp }

/-- task.rs, Task::with_category. -/
def Task.withCategory (t : Task) (category : Str) : Task :=
  { t with category := some category }

/-- task.rs, Task::with_description. -/
def Task.withDescription (t : Task) (desc : Str) : Task :=
  { t with description := some desc }

/-- The serialize side of unwrap_or("None"): an absent optional field is
written as the literal text None. -/
def optField : Option Str → Str
  | some s => s
  | none => "None".toList

/-- task.rs, Task::serialize: the seven fields joined by the pipe character. -/
def Task.serialize (t : Task) : Str :=
  renderNat t.id ++ '|' :: t.title ++ '|' :: optField t.description ++ '|' ::
    t.priority.display ++ '|' :: t.status.display ++ '|' :: optField t.category ++ '|' ::
      t.created_at

/-- Rust str::split(sep).collect::<Vec<_>>() on a single-character separator:
the (possibly empty) pieces between separator occurrences, in order.  The
result is never empty. -/
def splitOnChar (sep : Char) : Str → List Str
  | [] => [[]]
  | c :: cs =>
    if c = sep then [] :: splitOnChar sep cs
    else
      match splitOnChar sep cs with
      | [] => [[c]]
      | f :: fs => (c :: f) :: fs

/-- task.rs, Task::deserialize: split on the pipe, require exactly 7 fields,
parse the id as a u32, map the literal None back to absent optionals, parse
priority and status with their parsers, propagating their errors. -/
def Task.deserialize (data : Str) : Except TaskError Task :=
  let parts := splitOnChar '|' data
  if parts.length ≠ 7 then
    .error (.SerializationError ("Expected 7 fields, got ".toList ++ renderNat parts.length))
  else
    match parseU32 (parts.getD 0 []) with
    | none => .error (.ParseError "Invalid ID".toList)
    | some id =>
      let title := parts.getD 1 []
      let description := if parts.getD 2 [] = "None".toList then none else some (parts.getD 2 [])
      match Priority.fromStr (parts.getD 3 []) with
      | .error e => .error e
      | .ok priority =>
        match Status.fromStr (parts.getD 4 []) with
        | .error e => .error e
        | .ok status =>
          let category := if parts.getD 5 [] = "None".toList then none else some (parts.getD 5 [])
          .ok { id := id, title := title, description := description, priority := priority,
                status := status, category := category, created_at := parts.getD 6 [] }

/-- manager.rs, struct TaskManager, specialised to Task records. -/
structure TaskManager where
  tasks : List Task
  next_id : Nat
  deriving DecidableEq, Repr

/-- manager.rs, TaskManager::new. -/
def TaskManager.new : TaskManager := { tasks := [], next_id := 1 }

/-- manager.rs, TaskManager::count. -/
def TaskManager.count (m : TaskManager) : Nat := m.tasks.length

/-- manager.rs, TaskManager::add_task: push the task, hand out next_id, then
increment it (u32 increment). -/
def TaskManager.addTask (m : TaskManager) (t : Task) : Nat × TaskManager :=
  (m.next_id, { tasks := m.tasks ++ [t], next_id := (m.next_id + 1) % 2 ^ 32 })

/-- manager.rs, TaskManager::get_task (the generic container): the find
closure is a placeholder that accepts every element, ignoring the id. -/
def TaskManager.getTask (m : TaskManager) (id : Nat) : Option Task :=
  m.tasks.find? fun _ => true

/-- manager.rs, TaskManager::get_task_by_id: first task whose id matches. -/
def TaskManager.getTaskById (m : TaskManager) (id : Nat) : Option Task :=
  m.tasks.find? fun t => t.id == id

/-- Vec::iter().position(p) followed by Vec::remove(pos): the first element
satisfying p together with the list with that element removed. -/
def removeFirst (p : Task → Bool) : List Task → Option (Task × List Task)
  | [] => none
  | t :: ts =>
    if p t then some (t, ts)
    else (removeFirst p ts).map fun r => (r.1, t :: r.2)

/-- manager.rs, TaskManager::remove_task_by_id: position of the task with the
id, remove and return it, or NotFound; the store is untouched on failure. -/
def TaskManager.removeTaskById (m : TaskManager) (id : Nat) :
    Except TaskError Task × TaskManager :=
  match removeFirst (fun t => t.id == id) m.tasks with
  | none => (.error (.NotFound id), m)
  | some (t, rest) => (.ok t, { m with tasks := rest })

/-- manager.rs, TaskManager::load_tasks: replace the collection and reset
next_id to 1 (the generic placeholder version). -/
def TaskManager.loadTasks (m : TaskManager) (ts : List Task) : TaskManager :=
  { tasks := ts, next_id := 1 }

/-- manager.rs, TaskManager::load_tasks_with_id_update: replace the collection
and set next_id to max id + 1 (u32 increment), with max () = 0 on empty. -/
def TaskManager.loadTasksWithIdUpdate (m : TaskManager) (ts : List Task) : TaskManager :=
  let maxId := (ts.map Task.id).foldr max 0
  { tasks := ts, next_id := (maxId + 1) % 2 ^ 32 }

/-- main.rs, handle_add_command: pre-assign id = count() as u32 + 1, construct
the task (an error leaves the store untouched), apply the optional category,
and push the task into the store. -/
def handleAddCommand (m : TaskManager) (title : Str) (priority : Priority)
    (category : Option Str) : TaskManager :=
  let id := (m.count % 2 ^ 32 + 1) % 2 ^ 32
  match Task.new id title priority with
  | .error _ => m
  | .ok t =>
    let t := match category with
      | some c => t.withCategory c
      | none => t
    (m.addTask t).2

/-- The store mutations the command loop of main.rs can perform. -/
inductive Cmd where
  | add : Str → Priority → Option Str → Cmd
  | delete : Nat → Cmd

/-- One command against the store, as dispatched by main.rs. -/
def stepCmd (m : TaskManager) : Cmd → TaskManager
  | .add title priority category => handleAddCommand m title priority category
  | .delete id => (m.removeTaskById id).2

/-- A whole command sequence against the store. -/
def runCmds (m : TaskManager) (cs : List Cmd) : TaskManager := cs.foldl stepCmd m

/-- Strip one trailing carriage return, as str::lines does on each line that
was terminated by a newline. -/
def stripCR (cs : Str) : Str :=
  if cs.getLast? = some '\r' then cs.dropLast else cs

/-- Rust str::lines: split on the newline character, strip a carriage return
from every piece that was followed by a newline, and drop the final piece
when it is empty (the final line ending is optional). -/
def rustLines (cs : Str) : List Str :=
  let ps := splitOnChar '\n' cs
  let front := ps.dropLast.map stripCR
  match ps.getLast? with
  | none => front
  | some [] => front
  | some last => front ++ [last]

/-- storage.rs, the loop body of FileStorage::load: skip lines that are blank
after trimming, deserialize each remaining line in order, and abort with the
first deserialize error. -/
def loadLines : List Str → Except TaskError (List Task)
  | [] => .ok []
  | l :: ls =>
    if (trimChars l).isEmpty then loadLines ls
    else
      match Task.deserialize l with
      | .error e => .error e
      | .ok t =>
        match loadLines ls with
        | .error e => .error e
        | .ok ts => .ok (t :: ts)

/-- storage.rs, FileStorage::load: the file system is abstracted to the
optional contents of the backing file; a missing file yields the empty
collection, otherwise the contents are split into lines and decoded. -/
def FileStorage.load (file : Option Str) : Except TaskError (List Task) :=
  match file with
  | none => .ok []
  | some content => loadLines (rustLines content)

/-! ## Concrete records used as test inputs -/

/-- A well-behaved concrete task: no delimiter in any field, optionals
distinct from the literal None. -/
def sampleTask : Task :=
  { id := 1, title := "Buy milk".toList, description := some ("fresh".toList),
    priority := .High, status := .InProgress, category := some ("home".toList),
    created_at := currentTimestamp }

/-- A task whose title contains the unescaped delimiter. -/
def pipeTitleTask : Task :=
  { id := 1, title := "a|b".toList, description := none, priority := .High,
    status := .Pending, category := none, created_at := currentTimestamp }

/-- A task carrying the largest u32 identifier. -/
def bigIdTask : Task :=
  { id := 4294967295, title := "big".toList, description := none, priority := .Low,
    status := .Pending, category := none, created_at := currentTimestamp }

/-- A task with identifier 5, used to probe lookups for identifier 7. -/
def strayTask : Task :=
  { id := 5, title := "stray".toList, description := none, priority := .Medium,
    status := .Pending, category := none, created_at := currentTimestamp }

/-- A task whose optional fields hold the literal text None. -/
def noneLiteralTask : Task :=
  { id := 3, title := "write".toList, description := some ("None".toList),
    priority := .Low, status := .Completed, category := some ("None".toList),
    created_at := currentTimestamp }

/-! ## Splitting lemmas -/

theorem splitOnChar_ne_nil (sep : Char) (cs : Str) : splitOnChar sep cs ≠ [] := by
  induction cs with
  | nil => simp [splitOnChar]
  | cons c cs ih =>
    simp only [splitOnChar]
    split
    · simp
    · rcases hs : splitOnChar sep cs with _ | ⟨f, fs⟩ <;> simp

theorem splitOnChar_of_not_mem {sep : Char} {cs : Str} (h : sep ∉ cs) :
    splitOnChar sep cs = [cs] := by
  induction cs with
  | nil => rfl
  | cons c cs ih =>
    simp only [List.mem_cons, not_or] at h
    obtain ⟨h1, h2⟩ := h
    have hc : ¬ c = sep := fun e => h1 (Eq.symm e)
    rw [splitOnChar, if_neg hc, ih h2]

theorem splitOnChar_append {sep : Char} {f : Str} (hf : sep ∉ f) (rest : Str) :
    splitOnChar sep (f ++ sep :: rest) = f :: splitOnChar sep rest := by
  induction f with
  | nil => simp [splitOnChar]
  | cons c cs ih =>
    simp only [List.mem_cons, not_or] at hf
    obtain ⟨h1, h2⟩ := hf
    have hc : ¬ c = sep := fun e => h1 (Eq.symm e)
    show splitOnChar sep (c :: (cs ++ sep :: rest)) = (c :: cs) :: splitOnChar sep rest
    rw [splitOnChar, if_neg hc, ih h2]

/-! ## Decimal rendering and parsing lemmas -/

theorem digitChar_facts : ∀ d, d < 10 →
    (Nat.digitChar d).isDigit = true ∧ (Nat.digitChar d).toNat - 48 = d ∧
    Nat.digitChar d ≠ '+' ∧ Nat.digitChar d ≠ '|' := by decide

theorem natDigitsAux_eq : ∀ (fuel n : Nat), n ≤ fuel →
    natDigitsAux fuel n = (Nat.digits 10 n).reverse.map Nat.digitChar := by
  intro fuel
  induction fuel with
  | zero =>
    intro n hn
    interval_cases n
    simp [natDigitsAux]
  | succ fuel ih =>
    intro n hn
    by_cases h0 : n = 0
    · subst h0; simp [natDigitsAux]
    · have hdiv : n / 10 ≤ fuel := by
        have : n / 10 < n := Nat.div_lt_self (Nat.pos_of_ne_zero h0) (by norm_num)
        omega
      rw [natDigitsAux, if_neg h0, ih (n / 10) hdiv,
        Nat.digits_def' (by norm_num : (1 : ℕ) < 10) (Nat.pos_of_ne_zero h0)]
      simp

theorem renderNat_eq (n : Nat) :
    renderNat n = if n = 0 then ['0'] else (Nat.digits 10 n).reverse.map Nat.digitChar := by
  unfold renderNat
  split
  · rfl
  · exact natDigitsAux_eq n n le_rfl

theorem renderNat_all_digit (n : Nat) : ∀ c ∈ renderNat n, c.isDigit = true := by
  rw [renderNat_eq]
  split
  · intro c hc
    simp only [List.mem_singleton] at hc
    subst hc; decide
  · intro c hc
    simp only [List.mem_map, List.mem_reverse] at hc
    obtain ⟨d, hd, rfl⟩ := hc
    exact (digitChar_facts d (Nat.digits_lt_base (by norm_num) hd)).1

theorem renderNat_ne_nil (n : Nat) : renderNat n ≠ [] := by
  rw [renderNat_eq]
  split
  · simp
  · simp only [ne_eq, List.map_eq_nil_iff, List.reverse_eq_nil_iff]
    exact Nat.digits_ne_nil_iff_ne_zero.mpr (by assumption)

theorem pipe_not_mem_renderNat (n : Nat) : '|' ∉ renderNat n := by
  intro h
  exact absurd (renderNat_all_digit n _ h) (by decide)

theorem foldl_digitChars (l : List Nat) (hl : ∀ d ∈ l, d < 10) : ∀ a : Nat,
    ((l.map Nat.digitChar).reverse).foldl (fun acc c => acc * 10 + (c.toNat - 48)) a =
      a * 10 ^ l.length + Nat.ofDigits 10 l := by
  induction l with
  | nil => intro a; simp [Nat.ofDigits]
  | cons d t ih =>
    intro a
    have hd : d < 10 := hl d (List.mem_cons_self d t)
    have ht : ∀ x ∈ t, x < 10 := fun x hx => hl x (List.mem_cons_of_mem _ hx)
    simp only [List.map_cons, List.reverse_cons, List.foldl_append, List.foldl_cons,
      List.foldl_nil]
    rw [ih ht, (digitChar_facts d hd).2.1, Nat.ofDigits_cons]
    simp only [List.length_cons, pow_succ]
    ring

theorem parseDigits_renderNat (n : Nat) : parseDigits (renderNat n) = some n := by
  unfold parseDigits
  rw [if_neg (by simp [renderNat_ne_nil n]), if_pos (by
    rw [List.all_eq_true]; exact renderNat_all_digit n)]
  congr 1
  rw [renderNat_eq]
  split
  · subst n; decide
  · rw [List.map_reverse]
    rw [foldl_digitChars (Nat.digits 10 n)
      (fun d hd => Nat.digits_lt_base (by norm_num) hd) 0]
    simp [Nat.ofDigits_digits]

theorem parseU32_renderNat {n : Nat} (h : n < 2 ^ 32) : parseU32 (renderNat n) = some n := by
  have hh : ¬ (renderNat n).head? = some '+' := by
    cases hr : renderNat n with
    | nil => simp
    | cons c cs =>
      simp only [List.head?, Option.some.injEq]
      intro he
      have hdig : c.isDigit = true :=
        renderNat_all_digit n c (by rw [hr]; exact List.mem_cons_self c cs)
      rw [he] at hdig
      exact absurd hdig (by decide)
  simp only [parseU32, if_neg hh, parseDigits_renderNat, if_pos h]

/-! ## Rendering and parsing of the enumerations -/

theorem priority_fromStr_display (p : Priority) : Priority.fromStr p.display = .ok p := by
  cases p <;> decide

theorem status_fromStr_display (s : Status) : Status.fromStr s.display = .ok s := by
  cases s <;> decide

theorem pipe_not_mem_priority_display (p : Priority) : '|' ∉ p.display := by
  cases p <;> decide

theorem pipe_not_mem_status_display (s : Status) : '|' ∉ s.display := by
  cases s <;> decide

/-! ## The codec round trip -/

theorem splitOnChar_serialize (t : Task)
    (ht : '|' ∉ t.title) (hd : '|' ∉ optField t.description)
    (hc : '|' ∉ optField t.category) (ha : '|' ∉ t.created_at) :
    splitOnChar '|' t.serialize =
      [renderNat t.id, t.title, optField t.description, t.priority.display,
       t.status.display, optField t.category, t.created_at] := by
  unfold Task.serialize
  simp only [List.append_assoc, List.cons_append]
  rw [splitOnChar_append (pipe_not_mem_renderNat t.id),
    splitOnChar_append ht, splitOnChar_append hd,
    splitOnChar_append (pipe_not_mem_priority_display t.priority),
    splitOnChar_append (pipe_not_mem_status_display t.status),
    splitOnChar_append hc, splitOnChar_of_not_mem ha]

/-- Claim C1 (amended): for every Task whose id fits in a u32, whose title,
description, category and created_at contain no pipe character, and whose
description and category are not the literal text None, deserializing the
serialization succeeds and reproduces the task field-for-field. -/
theorem serialize_roundtrip (t : Task) (hid : t.id < 2 ^ 32)
    (ht : '|' ∉ t.title)
    (hd : ∀ s, t.description = some s → '|' ∉ s ∧ s ≠ "None".toList)
    (hc : ∀ s, t.category = some s → '|' ∉ s ∧ s ≠ "None".toList)
    (ha : '|' ∉ t.created_at) :
    Task.deserialize t.serialize = .ok t := by
  have hd' : '|' ∉ optField t.description := by
    cases hdesc : t.description with
    | none => decide
    | some s => exact (hd s hdesc).1
  have hc' : '|' ∉ optField t.category := by
    cases hcat : t.category with
    | none => decide
    | some s => exact (hc s hcat).1
  have hsplit := splitOnChar_serialize t ht hd' hc' ha
  simp only [Task.deserialize, hsplit]
  norm_num
  rw [parseU32_renderNat hid]
  simp only [priority_fromStr_display, status_fromStr_display]
  cases hdesc : t.description with
  | none =>
    cases hcat : t.category with
    | none =>
      simp only [optField, if_pos rfl]
      obtain ⟨id, title, desc, pr, st, cat, ca⟩ := t
      simp_all
    | some s =>
      simp only [optField, if_pos rfl, if_neg (hc s hcat).2]
      obtain ⟨id, title, desc, pr, st, cat, ca⟩ := t
      simp_all
  | some s =>
    cases hcat : t.category with
    | none =>
      simp only [optField, if_pos rfl, if_neg (hd s hdesc).2]
      obtain ⟨id, title, desc, pr, st, cat, ca⟩ := t
      simp_all
    | some s2 =>
      simp only [optField, if_neg (hd s hdesc).2, if_neg (hc s2 hcat).2]
      obtain ⟨id, title, desc, pr, st, cat, ca⟩ := t
      simp_all

/-- Claim C1, witness: the guarded round trip instantiated at a concrete
task with both optional fields populated. -/
theorem serialize_roundtrip_check :
    Task.deserialize (Task.serialize sampleTask) = .ok sampleTask :=
  serialize_roundtrip sampleTask (by decide) (by decide)
    (by intro s hs
        replace hs : some ("fresh".toList) = some s := hs
        injection hs with hs
        subst hs
        exact ⟨by decide, by decide⟩)
    (by intro s hs
        replace hs : some ("home".toList) = some s := hs
        injection hs with hs
        subst hs
        exact ⟨by decide, by decide⟩)
    (by decide)

/-- Claim C1, counterexample to the unrestricted statement: a task whose
title contains the delimiter does not survive the round trip (the decoder
sees eight fields and rejects the line). -/
theorem serialize_roundtrip_cex :
    Task.deserialize (Task.serialize pipeTitleTask) ≠ .ok pipeTitleTask := by decide

/-! ## Identifier assignment by the command layer -/

/-- Claim C2: the command layer pre-assigns id = count() + 1, so after
add, add, delete 1, add the store holds two records that both carry
identifier 2 — uniqueness fails on the reference behavior. -/
theorem add_after_remove_duplicates_id :
    (runCmds TaskManager.new
      [Cmd.add ("a".toList) Priority.High none, Cmd.add ("b".toList) Priority.High none,
       Cmd.delete 1, Cmd.add ("c".toList) Priority.High none]).tasks.map Task.id = [2, 2] ∧
    ¬ ((runCmds TaskManager.new
      [Cmd.add ("a".toList) Priority.High none, Cmd.add ("b".toList) Priority.High none,
       Cmd.delete 1, Cmd.add ("c".toList) Priority.High none]).tasks.map Task.id).Nodup := by
  constructor <;> decide

/-! ## Reloading the store -/

theorem foldr_max_lt {l : List Nat} {b : Nat} (hb : 0 < b) (h : ∀ x ∈ l, x < b) :
    l.foldr max 0 < b := by
  induction l with
  | nil => simpa using hb
  | cons x t ih =>
    simp only [List.foldr_cons]
    exact Nat.max_lt.mpr ⟨h x (List.mem_cons_self x t),
      ih (fun y hy => h y (List.mem_cons_of_mem _ hy))⟩

theorem le_foldr_max {l : List Nat} {x : Nat} (h : x ∈ l) : x ≤ l.foldr max 0 := by
  induction l with
  | nil => cases h
  | cons a t ih =>
    rcases List.mem_cons.mp h with rfl | h
    · exact Nat.le_max_left _ _
    · exact Nat.le_trans (ih h) (Nat.le_max_right _ _)

/-- Claim C3 (amended): provided every loaded id is below the largest u32
value, load_tasks_with_id_update replaces the collection wholesale and sets
next_id to the maximum loaded id plus one (1 on an empty collection), so the
next identifier exceeds every identifier present in the loaded set. -/
theorem loadTasksWithIdUpdate_spec (m : TaskManager) (ts : List Task)
    (h : ∀ t ∈ ts, t.id < 2 ^ 32 - 1) :
    (m.loadTasksWithIdUpdate ts).tasks = ts ∧
    (m.loadTasksWithIdUpdate ts).next_id = (ts.map Task.id).foldr max 0 + 1 ∧
    (ts = [] → (m.loadTasksWithIdUpdate ts).next_id = 1) ∧
    ∀ t ∈ ts, t.id < (m.loadTasksWithIdUpdate ts).next_id := by
  have hmax : (ts.map Task.id).foldr max 0 < 2 ^ 32 - 1 :=
    foldr_max_lt (by norm_num)
      (fun x hx => by obtain ⟨t, ht, rfl⟩ := List.mem_map.mp hx; exact h t ht)
  have hmod : ((ts.map Task.id).foldr max 0 + 1) % 2 ^ 32 =
      (ts.map Task.id).foldr max 0 + 1 := Nat.mod_eq_of_lt (by omega)
  refine ⟨rfl, ?_, ?_, ?_⟩
  · simp only [TaskManager.loadTasksWithIdUpdate]
    exact hmod
  · intro he; subst he
    simp only [TaskManager.loadTasksWithIdUpdate, List.map_nil, List.foldr_nil]
    norm_num
  · intro t ht
    have hle := le_foldr_max (List.mem_map_of_mem Task.id ht)
    simp only [TaskManager.loadTasksWithIdUpdate, hmod]
    omega

/-- Claim C3, witness: reloading with a single record of id 7 yields that
collection and next identifier 8. -/
theorem loadTasksWithIdUpdate_check :
    (TaskManager.new.loadTasksWithIdUpdate [strayTask]).tasks = [strayTask] ∧
    (TaskManager.new.loadTasksWithIdUpdate [strayTask]).next_id = 6 :=
  have hs := loadTasksWithIdUpdate_spec TaskManager.new [strayTask] (by decide)
  ⟨hs.1, by rw [hs.2.1]; decide⟩

/-- Claim C3, counterexample to the unrestricted statement: loading a record
with the largest u32 identifier wraps next_id to 0, which does not exceed the
loaded identifier. -/
theorem load_next_id_overflow_cex :
    (TaskManager.new.loadTasksWithIdUpdate [bigIdTask]).next_id = 0 ∧
    bigIdTask ∈ (TaskManager.new.loadTasksWithIdUpdate [bigIdTask]).tasks ∧
    ¬ bigIdTask.id < (TaskManager.new.loadTasksWithIdUpdate [bigIdTask]).next_id := by
  refine ⟨?_, ?_, ?_⟩ <;> decide

/-! ## Task construction -/

theorem trimChars_isEmpty_iff (cs : Str) :
    (trimChars cs).isEmpty = true ↔ cs.all isWsChar = true := by
  unfold trimChars
  rw [List.isEmpty_iff, List.reverse_eq_nil_iff, List.dropWhile_eq_nil_iff]
  constructor
  · intro h
    rw [List.all_eq_true]
    intro x hx
    rw [← List.takeWhile_append_dropWhile isWsChar (l := cs), List.mem_append] at hx
    rcases hx with hx | hx
    · exact List.mem_takeWhile_imp hx
    · exact h x (List.mem_reverse.mpr hx)
  · intro h x hx
    rw [List.all_eq_true] at h
    exact h x ((List.dropWhile_sublist isWsChar).subset (List.mem_reverse.mp hx))

/-- Claim C4: construction returns a ValidationFailure exactly when the title
is empty or all whitespace; a non-blank title yields the task with the given
id, title and priority, status Pending and absent optionals. -/
theorem task_new_spec (id : Nat) (title : Str) (p : Priority) :
    (Task.new id title p = .error (.ValidationError ("Title cannot be empty".toList)) ↔
      title.all isWsChar = true) ∧
    (title.all isWsChar = false →
      Task.new id title p = .ok
        { id := id, title := title, description := none, priority := p,
          status := .Pending, category := none, created_at := currentTimestamp }) := by
  constructor
  · rw [← trimChars_isEmpty_iff]
    unfold Task.new
    by_cases h : (trimChars title).isEmpty = true
    · simp [h]
    · simp [h]
  · intro h
    have hne : ¬ (trimChars title).isEmpty = true := by
      rw [trimChars_isEmpty_iff, h]; simp
    rw [Task.new, if_neg hne]

/-- Claim C4, witness: an all-space title is rejected and a real title is
accepted with the defaulted fields. -/
theorem task_new_check :
    Task.new 1 ("   ".toList) Priority.High =
      .error (.ValidationError ("Title cannot be empty".toList)) ∧
    Task.new 1 ("Buy milk".toList) Priority.High =
      .ok
        { id := 1, title := "Buy milk".toList, description := none, priority := .High,
          status := .Pending, category := none, created_at := currentTimestamp } :=
  ⟨(task_new_spec 1 ("   ".toList) Priority.High).1.mpr (by decide),
   (task_new_spec 1 ("Buy milk".toList) Priority.High).2 (by decide)⟩

/-! ## Decoder error behavior -/

/-- Claim C5: a line splitting into other than seven fields is rejected with
a SerializationFailure naming the count; a seven-field line with a
non-numeric first field is rejected with a parse error; priority and status
parse failures are propagated unchanged. -/
theorem deserialize_errors_spec (data : Str) :
    ((splitOnChar '|' data).length ≠ 7 →
      Task.deserialize data = .error (.SerializationError
        ("Expected 7 fields, got ".toList ++ renderNat (splitOnChar '|' data).length))) ∧
    ((splitOnChar '|' data).length = 7 →
      parseU32 ((splitOnChar '|' data).getD 0 []) = none →
      Task.deserialize data = .error (.ParseError ("Invalid ID".toList))) ∧
    (∀ id e, (splitOnChar '|' data).length = 7 →
      parseU32 ((splitOnChar '|' data).getD 0 []) = some id →
      Priority.fromStr ((splitOnChar '|' data).getD 3 []) = .error e →
      Task.deserialize data = .error e) ∧
    (∀ id p e, (splitOnChar '|' data).length = 7 →
      parseU32 ((splitOnChar '|' data).getD 0 []) = some id →
      Priority.fromStr ((splitOnChar '|' data).getD 3 []) = .ok p →
      Status.fromStr ((splitOnChar '|' data).getD 4 []) = .error e →
      Task.deserialize data = .error e) := by
  refine ⟨?_, ?_, ?_, ?_⟩
  · intro h7
    simp only [Task.deserialize, if_pos h7]
  · intro h7 hid
    simp only [Task.deserialize, if_neg (by omega : ¬ (splitOnChar '|' data).length ≠ 7), hid]
  · intro id e h7 hid hpr
    simp only [Task.deserialize, if_neg (by omega : ¬ (splitOnChar '|' data).length ≠ 7),
      hid, hpr]
  · intro id p e h7 hid hpr hst
    simp only [Task.deserialize, if_neg (by omega : ¬ (splitOnChar '|' data).length ≠ 7),
      hid, hpr, hst]

/-- Claim C5, witness: a two-field line, a bad id, a bad priority and a bad
status each produce the predicted error. -/
theorem deserialize_errors_check :
    Task.deserialize ("a|b".toList) =
      .error (.SerializationError ("Expected 7 fields, got 2".toList)) ∧
    Task.deserialize ("x|t|None|HIGH|PENDING|None|now".toList) =
      .error (.ParseError ("Invalid ID".toList)) ∧
    Task.deserialize ("1|t|None|urgent|PENDING|None|now".toList) =
      .error (.InvalidPriority ("urgent".toList)) ∧
    Task.deserialize ("1|t|None|HIGH|paused|None|now".toList) =
      .error (.InvalidStatus ("paused".toList)) :=
  ⟨(deserialize_errors_spec ("a|b".toList)).1 (by decide),
   (deserialize_errors_spec ("x|t|None|HIGH|PENDING|None|now".toList)).2.1 (by decide) (by decide),
   (deserialize_errors_spec ("1|t|None|urgent|PENDING|None|now".toList)).2.2.1 1
     (.InvalidPriority ("urgent".toList)) (by decide) (by decide) (by decide),
   (deserialize_errors_spec ("1|t|None|HIGH|paused|None|now".toList)).2.2.2 1 Priority.High
     (.InvalidStatus ("paused".toList)) (by decide) (by decide) (by decide) (by decide)⟩

/-! ## The persistence adapter -/

theorem loadLines_eq (ls : List Str) :
    loadLines ls = (ls.filter fun l => !(trimChars l).isEmpty).mapM Task.deserialize := by
  induction ls with
  | nil => rfl
  | cons l ls ih =>
    rw [loadLines]
    by_cases hb : (trimChars l).isEmpty = true
    · rw [if_pos hb, ih, List.filter_cons_of_neg (by simp [hb])]
    · rw [if_neg hb, List.filter_cons_of_pos (by simp [hb]), List.mapM_cons, ← ih]
      cases hdes : Task.deserialize l with
      | error e => simp [Bind.bind, Except.bind]
      | ok t =>
        cases hload : loadLines ls with
        | error e => simp [Bind.bind, Except.bind, Pure.pure, Except.pure]
        | ok ts => simp [Bind.bind, Except.bind, Pure.pure, Except.pure]

/-- Claim C6: loading from an absent file yields the empty collection, and
loading from file contents decodes exactly the lines that are non-blank
after trimming, in order, with the first decode failure aborting the whole
load (the monadic mapM over Except). -/
theorem fileStorage_load_spec :
    FileStorage.load none = .ok ([] : List Task) ∧
    ∀ content : Str, FileStorage.load (some content) =
      ((rustLines content).filter fun l => !(trimChars l).isEmpty).mapM Task.deserialize := by
  refine ⟨rfl, ?_⟩
  intro content
  show loadLines (rustLines content) = _
  exact loadLines_eq (rustLines content)

/-! ## Removal from the store -/

theorem removeFirst_eq_none {p : Task → Bool} {l : List Task}
    (h : ∀ t ∈ l, p t = false) : removeFirst p l = none := by
  induction l with
  | nil => rfl
  | cons a l ih =>
    rw [removeFirst, if_neg (by simp [h a (List.mem_cons_self a l)]),
      ih (fun t ht => h t (List.mem_cons_of_mem _ ht))]
    rfl

theorem removeFirst_eq_some {p : Task → Bool} :
    ∀ {l : List Task} {t : Task} {rest : List Task}, removeFirst p l = some (t, rest) →
      p t = true ∧ ∃ pre post, l = pre ++ t :: post ∧ rest = pre ++ post ∧
        ∀ u ∈ pre, p u = false := by
  intro l
  induction l with
  | nil => intro t rest h; exact absurd h (by simp [removeFirst])
  | cons a l ih =>
    intro t rest h
    rw [removeFirst] at h
    by_cases ha : p a = true
    · rw [if_pos ha] at h
      injection h with h
      rw [Prod.mk.injEq] at h
      obtain ⟨rfl, rfl⟩ := h
      exact ⟨ha, [], l, rfl, rfl, by simp⟩
    · rw [if_neg ha] at h
      cases hr : removeFirst p l with
      | none => rw [hr] at h; exact absurd h (by simp)
      | some pr =>
        obtain ⟨t', rest'⟩ := pr
        rw [hr] at h
        simp only [Option.map] at h
        injection h with h
        rw [Prod.mk.injEq] at h
        obtain ⟨rfl, rfl⟩ := h
        obtain ⟨hp, pre, post, hl, hr2, hpre⟩ := ih hr
        refine ⟨hp, a :: pre, post, by rw [hl]; rfl, by simp [hr2], ?_⟩
        intro u hu
        rcases List.mem_cons.mp hu with rfl | hu
        · simpa using ha
        · exact hpre u hu

theorem removeFirst_isSome {p : Task → Bool} :
    ∀ {l : List Task}, (∃ t ∈ l, p t = true) → (removeFirst p l).isSome = true := by
  intro l
  induction l with
  | nil => rintro ⟨t, ht, _⟩; cases ht
  | cons a l ih =>
    rintro ⟨t, ht, hp⟩
    rw [removeFirst]
    by_cases ha : p a = true
    · rw [if_pos ha]; rfl
    · rw [if_neg ha]
      rcases List.mem_cons.mp ht with rfl | ht

      · exact absurd hp ha
      · have := ih ⟨t, ht, hp⟩
        cases hr : removeFirst p l with
        | none => rw [hr] at this; exact absurd this (by simp)
        | some pr => simp

/-- Claim C7: removing an absent identifier reports NotFound and leaves the
store untouched; removing a present identifier removes and returns the first
record carrying it (everything before it has a different id), shrinking the
count by exactly one and leaving next_id alone. -/
theorem removeTaskById_spec (m : TaskManager) (id : Nat) :
    ((∀ t ∈ m.tasks, t.id ≠ id) →
      m.removeTaskById id = (.error (.NotFound id), m)) ∧
    ((∃ t ∈ m.tasks, t.id = id) →
      ∃ t m', m.removeTaskById id = (.ok t, m') ∧ t.id = id ∧
        (∃ pre post, m.tasks = pre ++ t :: post ∧ m'.tasks = pre ++ post ∧
          ∀ u ∈ pre, u.id ≠ id) ∧
        m'.count + 1 = m.count ∧ m'.next_id = m.next_id) := by
  constructor
  · intro h
    rw [TaskManager.removeTaskById,
      removeFirst_eq_none (fun t ht => by simpa using h t ht)]
  · rintro ⟨t0, ht0, hid0⟩
    have hsome : (removeFirst (fun t => t.id == id) m.tasks).isSome = true :=
      removeFirst_isSome ⟨t0, ht0, by simpa using hid0⟩
    cases hr : removeFirst (fun t => t.id == id) m.tasks with
    | none => rw [hr] at hsome; exact absurd hsome (by simp)
    | some pr =>
      obtain ⟨t, rest⟩ := pr
      obtain ⟨hp, pre, post, hl, hrest, hpre⟩ := removeFirst_eq_some hr
      refine ⟨t, { m with tasks := rest }, ?_, by simpa using hp, ⟨pre, post, hl, hrest,
        fun u hu => by simpa using hpre u hu⟩, ?_, rfl⟩
      · rw [TaskManager.removeTaskById, hr]
      · simp only [TaskManager.count, hrest, hl, List.length_append, List.length_cons]
        omega

/-- Claim C7, witness: deleting id 7 from a store holding only id 5 fails
with NotFound and changes nothing; deleting id 5 returns that record and
drops the count from 1 to 0. -/
theorem removeTaskById_check :
    (TaskManager.mk [strayTask] 6).removeTaskById 7 =
      (.error (.NotFound 7), TaskManager.mk [strayTask] 6) ∧
    ∃ t m', (TaskManager.mk [strayTask] 6).removeTaskById 5 = (.ok t, m') ∧
      t.id = 5 ∧ m'.count + 1 = (TaskManager.mk [strayTask] 6).count :=
  ⟨(removeTaskById_spec (TaskManager.mk [strayTask] 6) 7).1 (by decide),
   by
    obtain ⟨t, m', h1, h2, _, h4, _⟩ :=
      (removeTaskById_spec (TaskManager.mk [strayTask] 6) 5).2
        ⟨strayTask, by decide, by decide⟩
    exact ⟨t, m', h1, h2, h4⟩⟩

/-! ## Priority parsing -/

/-- Claim C8: priority parsing is case-insensitive on the four keywords and
fails with InvalidPriority carrying the offending text on anything else. -/
theorem priority_parse_spec (s : Str) :
    (Priority.fromStr ("HIGH".toList) = .ok .High ∧
     Priority.fromStr ("high".toList) = .ok .High ∧
     Priority.fromStr ("High".toList) = .ok .High) ∧
    (Priority.fromStr ("LOW".toList) = .ok .Low ∧
     Priority.fromStr ("low".toList) = .ok .Low ∧
     Priority.fromStr ("Low".toList) = .ok .Low) ∧
    (Priority.fromStr ("MEDIUM".toList) = .ok .Medium ∧
     Priority.fromStr ("medium".toList) = .ok .Medium ∧
     Priority.fromStr ("Medium".toList) = .ok .Medium) ∧
    (Priority.fromStr ("CRITICAL".toList) = .ok .Critical ∧
     Priority.fromStr ("critical".toList) = .ok .Critical ∧
     Priority.fromStr ("Critical".toList) = .ok .Critical) ∧
    Priority.fromStr ("urgent".toList) = .error (.InvalidPriority ("urgent".toList)) ∧
    (lowerStr s ≠ "low".toList → lowerStr s ≠ "medium".toList →
      lowerStr s ≠ "high".toList → lowerStr s ≠ "critical".toList →
      Priority.fromStr s = .error (.InvalidPriority s)) := by
  refine ⟨by decide, by decide, by decide, by decide, by decide, ?_⟩
  intro h1 h2 h3 h4
  simp only [Priority.fromStr]
  rw [if_neg h1, if_neg h2, if_neg h3, if_neg h4]

/-- Claim C8, witness: a word outside the enumeration is rejected with
InvalidPriority carrying that word. -/
theorem priority_parse_check :
    Priority.fromStr ("severe".toList) = .error (.InvalidPriority ("severe".toList)) :=
  (priority_parse_spec ("severe".toList)).2.2.2.2.2
    (by decide) (by decide) (by decide) (by decide)

/-! ## Lookup by identifier -/

/-- Claim C9: the generic get operation does not look at the identifier: on a
store holding only the record with id 5, looking up id 7 returns that record
instead of absent, while the id-aware get_task_by_id correctly returns
none. -/
theorem getTask_ignores_id :
    (TaskManager.mk [strayTask] 6).getTask 7 = some strayTask ∧
    strayTask.id ≠ 7 ∧
    (TaskManager.mk [strayTask] 6).getTaskById 7 = none := by
  refine ⟨?_, ?_, ?_⟩ <;> decide

/-! ## Collapse of the literal None -/

/-- Claim C10: the codec collapses the literal text None with an absent
optional: a task whose description or category is Some None serializes
identically to the task with that field absent, the decoder returns the
field as absent, and serialize is therefore not injective on tasks. -/
theorem serialize_none_collapse :
    (∀ t : Task, t.description = some ("None".toList) →
      t.serialize = ({ t with description := none } : Task).serialize) ∧
    (∀ t : Task, t.category = some ("None".toList) →
      t.serialize = ({ t with category := none } : Task).serialize) ∧
    Task.serialize noneLiteralTask =
      Task.serialize { noneLiteralTask with description := none, category := none } ∧
    Task.deserialize (Task.serialize noneLiteralTask) =
      .ok { noneLiteralTask with description := none, category := none } ∧
    noneLiteralTask ≠ { noneLiteralTask with description := none, category := none } := by
  refine ⟨?_, ?_, by decide, by decide, by decide⟩
  · intro t h
    obtain ⟨id, title, desc, pr, st, cat, ca⟩ := t
    dsimp only at h
    subst h
    rfl
  · intro t h
    obtain ⟨id, title, desc, pr, st, cat, ca⟩ := t
    dsimp only at h
    subst h
    rfl

/-- Claim C10, witness: the field-collapse equation instantiated at the
concrete record whose description is the literal None. -/
theorem serialize_none_collapse_check :
    Task.serialize noneLiteralTask =
      Task.serialize ({ noneLiteralTask with description := none } : Task) :=
  (serialize_none_collapse).1 noneLiteralTask rfl

end TaskStore
